import Mathlib

/-!
Shallow embedding of the async-synchro locking library (`src/errors.ts`,
`src/semaphore.ts`, `src/mutex.ts`).  The two primitives are modelled as
explicit state machines: every private field of the classes becomes a field
of a Lean structure, every method becomes a state-transforming function, and
the synchronous callback firings / promise settlements are recorded in an
event log so that claims about callback counts, grant order and rejection
errors are expressible.  Promise resolution order equals the order of the
`resolve` calls made by the lock code, which is what the log captures;
releaser closures carry only their private `released` flag, so they are
modelled by an association list from releaser id to that flag.  The Mutex
promise executor is an arrow function invoking `#enque` on the instance; the
Semaphore instead passes its `#enque` method itself, unbound, so that
executor runs with an undefined `this`, throws a TypeError, and the Promise
constructor turns the throw into a rejection of the new waiter's promise
without the queue ever being touched — the embedding records that rejection
in the event log.
-/

/-- Model of the error values handled by the library: a `SynchroError` with a
message (as the exported `ErrCancelled` singleton) or a generic `Error`. -/
inductive JSError where
  | synchro (msg : String)
  | generic (tag : Nat)
  | typeError (msg : String)
deriving DecidableEq, Repr

/-- Model of `export const ErrCancelled = new SynchroError('lock cancelled')`
from `src/errors.ts`. -/
def ErrCancelled : JSError := .synchro "lock cancelled"

/-- Model of the TypeError raised when the `#enque` private method is invoked
with `this === undefined` (the message thrown by the compiled library's
`__classPrivateFieldGet` helper). -/
def ErrUnboundEnque : JSError :=
  .typeError "Cannot read private member from an object whose class did not declare it"

/-- Model of a JavaScript value passed as the `maxConcurrent` constructor
argument of `Semaphore`: a number, a string, or `undefined`. -/
inductive JSValue where
  | num (q : ℚ)
  | str (s : String)
  | undef
deriving DecidableEq, Repr

/-- JavaScript truthiness of the modelled values (`0`, `""` and `undefined`
are falsy). -/
def JSValue.truthy : JSValue → Bool
  | .num q => decide (q ≠ 0)
  | .str s => decide (s ≠ "")
  | .undef => false

/-- Model of `Math.trunc` on a rational number: dividing the numerator by the
denominator with integer T-division truncates toward zero. -/
def jsTrunc (q : ℚ) : Int := Int.tdiv q.num (q.den : Int)

/-- Lookup of a releaser's private `released` flag by releaser id. -/
def relGet (r : Nat) : List (Nat × Bool) → Option Bool
  | [] => none
  | p :: rest => if p.1 = r then some p.2 else relGet r rest

/-- Setting a releaser's private `released` flag. -/
def relSet (r : Nat) (b : Bool) (l : List (Nat × Bool)) : List (Nat × Bool) :=
  l.map (fun p => if p.1 = r then (p.1, b) else p)

/-- Options of a `Semaphore`; the three callbacks are modelled by whether they
were provided, `errorCancelled` by an optional error value. -/
structure SemOptions where
  onAquire : Bool
  onRelease : Bool
  onCancel : Bool
  errorCancelled : Option JSError
deriving DecidableEq, Repr

/-- Observable events of a `Semaphore`: callback firings and promise
settlements.  `granted w r avail` records that waiter `w`'s promise was
resolved with the ticket `(releaser r, avail)`; `rejected w e` records that
waiter `w`'s promise was rejected with error `e`.  The `cancel` event would
record an `onCancel` firing. -/
inductive SEvent where
  | aquire
  | release
  | cancel
  | granted (w r : Nat) (avail : Int)
  | rejected (w : Nat) (e : JSError)
deriving DecidableEq, Repr

/-- State of a `Semaphore` instance: the private fields `#maxConcurrent`,
`#allowed`, `#queue` (waiter ids, FIFO with the head first), the released
flags of all releaser closures made so far (`nextR` is the next fresh id),
and the event log. -/
structure SemState where
  opts : SemOptions
  maxConcurrent : Nat
  allowed : Int
  queue : List Nat
  nextR : Nat
  rel : List (Nat × Bool)
  log : List SEvent
deriving DecidableEq, Repr

/-- State of a `Semaphore` directly after construction with a given
`#maxConcurrent`: `#allowed = #maxConcurrent`, empty queue. -/
def SemState.init (n : Nat) (o : SemOptions) : SemState :=
  { opts := o, maxConcurrent := n, allowed := (n : Int), queue := [], nextR := 0,
    rel := [], log := [] }

/-- Errors thrown by the `Semaphore` constructor. -/
inductive ConstructError where
  | notANumber
  | notPositive
deriving DecidableEq, Repr

/-- Decidable equality of constructor results. -/
instance {ε α : Type} [DecidableEq ε] [DecidableEq α] : DecidableEq (Except ε α) := fun x y =>
  match x, y with
  | .ok a, .ok b =>
    if h : a = b then isTrue (by rw [h]) else isFalse (by intro hc; cases hc; exact h rfl)
  | .error a, .error b =>
    if h : a = b then isTrue (by rw [h]) else isFalse (by intro hc; cases hc; exact h rfl)
  | .ok _, .error _ => isFalse (by intro hc; cases hc)
  | .error _, .ok _ => isFalse (by intro hc; cases hc)

/-- Model of `new Semaphore(maxConcurrent, options)`: if `maxConcurrent` is
truthy it must be a number, must not be `≤ 0`, and is truncated to an
integer; otherwise (including `0`, which is falsy) `#maxConcurrent` defaults
to `1`. -/
def semaphoreNew (v : JSValue) (o : SemOptions) : Except ConstructError SemState :=
  if v.truthy then
    match v with
    | .num q =>
      if q ≤ 0 then .error .notPositive
      else .ok (SemState.init (jsTrunc q).toNat o)
    | _ => .error .notANumber
  else .ok (SemState.init 1 o)

/-- Model of `Semaphore.isLocked`: `#allowed <= 0`. -/
def sIsLocked (s : SemState) : Bool := decide (s.allowed ≤ 0)

/-- Model of `Semaphore.#dispatch`: shift the first queued waiter (stop if
none), make a fresh releaser whose `released` flag is `false`, and resolve
the waiter's promise with the ticket `(releaser, #maxConcurrent - #allowed)`.
Note that, as in the source, nothing decrements `#allowed` here. -/
def sdispatch (s : SemState) : SemState :=
  match s.queue with
  | [] => s
  | w :: rest =>
    { s with
      queue := rest
      nextR := s.nextR + 1
      rel := s.rel ++ [(s.nextR, false)]
      log := s.log ++ [.granted w s.nextR ((s.maxConcurrent : Int) - s.allowed)] }

/-- Model of invoking the releaser with id `r` made by `Semaphore.#dispatch`:
a no-op if already released, otherwise mark it released, increment
`#allowed`, fire `onRelease` if configured, and recursively dispatch. -/
def srelease (r : Nat) (s : SemState) : SemState :=
  match relGet r s.rel with
  | some false =>
    sdispatch
      { s with
        rel := relSet r true s.rel
        allowed := s.allowed + 1
        log := s.log ++ (if s.opts.onRelease then [SEvent.release] else []) }
  | _ => s

/-- Model of `Semaphore.acquire()`: cache `isLocked`, then build the promise
with `new Promise(this.#enque)`.  The `#enque` method is passed unbound, so
the executor runs with `this === undefined` and throws a TypeError, which the
Promise constructor turns into a rejection of the new waiter's promise; the
queue is never touched.  `acquire` then proceeds: it calls `#dispatch` when it
was not locked (a no-op whenever the queue is empty) and fires `onAquire` if
configured. -/
def sacquire (w : Nat) (s : SemState) : SemState :=
  let wasLocked := sIsLocked s
  let s1 := { s with log := s.log ++ [SEvent.rejected w ErrUnboundEnque] }
  let s2 := if wasLocked then s1 else sdispatch s1
  if s.opts.onAquire then { s2 with log := s2.log ++ [SEvent.aquire] } else s2

/-- Model of `Semaphore.cancelAll()`: reject every queued waiter with
`#options.errorCancelled ?? ErrCancelled`, empty the queue and reset
`#allowed` to `#maxConcurrent`.  As in the source, no callback is fired. -/
def scancelAll (s : SemState) : SemState :=
  { s with
    log := s.log ++ s.queue.map
      (fun w => SEvent.rejected w (s.opts.errorCancelled.getD ErrCancelled))
    queue := []
    allowed := (s.maxConcurrent : Int) }

/-- Operations an embedding client can perform on a `Semaphore`. -/
inductive SOp where
  | acquire (w : Nat)
  | release (r : Nat)
  | cancelAll
deriving DecidableEq, Repr

/-- One client operation on a `Semaphore`. -/
def sstep (s : SemState) : SOp → SemState
  | .acquire w => sacquire w s
  | .release r => srelease r s
  | .cancelAll => scancelAll s

/-- Run of a sequence of client operations on a freshly built `Semaphore`. -/
def srun (n : Nat) (o : SemOptions) (ops : List SOp) : SemState :=
  List.foldl sstep (SemState.init n o) ops

/-- Waiters granted so far, in promise-resolution order. -/
def grantedWaitersS (log : List SEvent) : List Nat :=
  log.filterMap (fun e => match e with | SEvent.granted w _ _ => some w | _ => none)

/-- Waiters whose promises were rejected so far, with their errors, in
promise-rejection order. -/
def rejectedWaitersS (log : List SEvent) : List (Nat × JSError) :=
  log.filterMap
    (fun e => match e with | SEvent.rejected w e2 => some (w, e2) | _ => none)

/-- Model of `Semaphore.guard(cb)`: `await this.acquire()` rejects with the
TypeError thrown by the unbound `#enque` promise executor, before the
`try`/`finally` is entered, so the callback never runs, no release token
exists or is invoked, and the rejection propagates to `guard`'s caller
unchanged. -/
def sguard (w : Nat) (s : SemState) (_cb : Int → Except JSError Nat) :
    SemState × Except JSError Nat :=
  (sacquire w s, Except.error ErrUnboundEnque)

/-- Options of a `Mutex` (`src/mutex.ts`); the callbacks are modelled by
whether a function was provided. -/
structure MutexOptions where
  onLock : Bool
  onRelease : Bool
  onCancel : Bool
  errorCancelled : Option JSError
deriving DecidableEq, Repr

/-- Observable events of a `Mutex`: `lockEv`, `releaseEv` and `cancelEv`
record firings of the `onLock`, `onRelease` and `onCancel` callbacks;
`granted w r` records that waiter `w`'s promise was resolved with releaser
`r`, and `rejected w e` that it was rejected with error `e`. -/
inductive MEvent where
  | lockEv
  | releaseEv
  | cancelEv
  | granted (w r : Nat)
  | rejected (w : Nat) (e : JSError)
deriving DecidableEq, Repr

/-- State of a `Mutex` instance: the `options` field, the private `#locked`
and `#queue` fields, the released flags of the releasers made by
`#makeReleaser` so far, and the event log. -/
structure MutexState where
  opts : MutexOptions
  locked : Bool
  queue : List Nat
  nextR : Nat
  rel : List (Nat × Bool)
  log : List MEvent
deriving DecidableEq, Repr

/-- State of a `Mutex` directly after construction: unlocked, empty queue. -/
def MutexState.init (o : MutexOptions) : MutexState :=
  { opts := o, locked := false, queue := [], nextR := 0, rel := [], log := [] }

/-- Firing of the `onLock` callback when one is configured. -/
def fireLock (s : MutexState) : MutexState :=
  if s.opts.onLock then { s with log := s.log ++ [MEvent.lockEv] } else s

/-- Model of `Mutex.#deque`: shift the next queued waiter (stop if none),
fire `onLock` if configured, and resolve the waiter's promise with a fresh
releaser made by `#makeReleaser` (its `released` flag starts `false`). -/
def mdeque (s : MutexState) : MutexState :=
  match s.queue with
  | [] => s
  | w :: rest =>
    let s1 := fireLock { s with queue := rest }
    { s1 with
      nextR := s1.nextR + 1
      rel := s1.rel ++ [(s1.nextR, false)]
      log := s1.log ++ [MEvent.granted w s1.nextR] }

/-- Model of `Mutex.lock()`: cache `isLocked`, enqueue the new waiter (the
promise executor calls `#enque`, which sets `#locked` and pushes), and if it
was not locked fire `onLock` and call `#deque` (which fires `onLock` again
for the dequeued waiter). -/
def mlock (w : Nat) (s : MutexState) : MutexState :=
  let wasLocked := s.locked
  let s1 := { s with locked := true, queue := s.queue ++ [w] }
  if wasLocked then s1 else mdeque (fireLock s1)

/-- Model of invoking the releaser with id `r` made by `Mutex.#makeReleaser`:
a no-op if already released, otherwise mark it released, fire `onRelease` if
configured, then dequeue the next waiter if the queue is non-empty and unlock
otherwise. -/
def mrelease (r : Nat) (s : MutexState) : MutexState :=
  match relGet r s.rel with
  | some false =>
    let s1 := { s with rel := relSet r true s.rel }
    let s2 :=
      if s1.opts.onRelease then { s1 with log := s1.log ++ [MEvent.releaseEv] } else s1
    if s2.queue.isEmpty then { s2 with locked := false } else mdeque s2
  | _ => s

/-- Model of `Mutex.cancelAll(err?)`: reject every queued waiter with
`err ?? options.errorCancelled ?? ErrCancelled`, empty the queue, set
`#locked` to `false`, then fire `onCancel` if configured. -/
def mcancelAll (err : Option JSError) (s : MutexState) : MutexState :=
  let e := err.getD (s.opts.errorCancelled.getD ErrCancelled)
  let s1 :=
    { s with
      log := s.log ++ s.queue.map (fun w => MEvent.rejected w e)
      queue := []
      locked := false }
  if s1.opts.onCancel then { s1 with log := s1.log ++ [MEvent.cancelEv] } else s1

/-- Operations an embedding client can perform on a `Mutex`. -/
inductive MOp where
  | lock (w : Nat)
  | release (r : Nat)
  | cancelAll (err : Option JSError)
deriving DecidableEq, Repr

/-- One client operation on a `Mutex`. -/
def mstep (s : MutexState) : MOp → MutexState
  | .lock w => mlock w s
  | .release r => mrelease r s
  | .cancelAll err => mcancelAll err s

/-- Run of a sequence of client operations on a freshly built `Mutex`. -/
def mrun (o : MutexOptions) (ops : List MOp) : MutexState :=
  List.foldl mstep (MutexState.init o) ops

/-- Waiters granted so far, in promise-resolution order. -/
def grantedWaitersM (log : List MEvent) : List Nat :=
  log.filterMap (fun e => match e with | MEvent.granted w _ => some w | _ => none)

/-- Derived available-capacity count of a Mutex — the implicit boolean
counter over the source's `#locked` field: `1` when unlocked, `0` when a
grant is outstanding or pending. -/
def mAvailable (s : MutexState) : Int := if s.locked then 0 else 1

/-- Last releaser granted to waiter `w`. -/
def lastGrantM (w : Nat) (log : List MEvent) : Option Nat :=
  log.reverse.findSome?
    (fun e => match e with
      | MEvent.granted w2 r => if w2 = w then some r else none
      | _ => none)

/-- Model of `Mutex.guard(cb)`, resumed after an immediate grant: lock, read
the releaser delivered for this waiter, run the callback, and release in a
`finally` so the releaser is invoked exactly once on both the success and the
failure path; the callback's outcome is returned unmodified. -/
def mguard (w : Nat) (s : MutexState) (cb : Except JSError Nat) :
    MutexState × Except JSError Nat :=
  let s1 := mlock w s
  match lastGrantM w s1.log with
  | some r => (mrelease r s1, cb)
  | none => (s1, cb)

/-- Semaphore options with every callback configured and no custom
cancellation error. -/
def optsAllS : SemOptions :=
  { onAquire := true, onRelease := true, onCancel := true, errorCancelled := none }

/-- Mutex options with every callback configured and no custom cancellation
error. -/
def optsAllM : MutexOptions :=
  { onLock := true, onRelease := true, onCancel := true, errorCancelled := none }

/-! Basic facts about the released-flag store and the event helpers. -/

theorem relGet_relSet (r : Nat) (b c : Bool) (l : List (Nat × Bool))
    (h : relGet r l = some b) : relGet r (relSet r c l) = some c := by
  induction l with
  | nil => simp [relGet] at h
  | cons p rest ih =>
    by_cases hp : p.1 = r
    · simp [relGet, relSet, hp]
    · simp [relGet, relSet, hp] at h ⊢
      exact ih h

theorem relGet_append_some (r : Nat) (b : Bool) (l1 l2 : List (Nat × Bool))
    (h : relGet r l1 = some b) : relGet r (l1 ++ l2) = some b := by
  induction l1 with
  | nil => simp [relGet] at h
  | cons p rest ih =>
    by_cases hp : p.1 = r
    · simp [relGet, hp] at h ⊢
      exact h
    · simp [relGet, hp] at h ⊢
      exact ih h

theorem relGet_append_none (r : Nat) (l1 l2 : List (Nat × Bool))
    (h : relGet r l1 = none) : relGet r (l1 ++ l2) = relGet r l2 := by
  induction l1 with
  | nil => simp
  | cons p rest ih =>
    by_cases hp : p.1 = r
    · simp [relGet, hp] at h
    · simp [relGet, hp] at h ⊢
      exact ih h

@[simp]
theorem fireLock_locked (s : MutexState) : (fireLock s).locked = s.locked := by
  unfold fireLock; split <;> rfl

@[simp]
theorem fireLock_queue (s : MutexState) : (fireLock s).queue = s.queue := by
  unfold fireLock; split <;> rfl

@[simp]
theorem fireLock_rel (s : MutexState) : (fireLock s).rel = s.rel := by
  unfold fireLock; split <;> rfl

@[simp]
theorem fireLock_nextR (s : MutexState) : (fireLock s).nextR = s.nextR := by
  unfold fireLock; split <;> rfl

@[simp]
theorem fireLock_opts (s : MutexState) : (fireLock s).opts = s.opts := by
  unfold fireLock; split <;> rfl

@[simp]
theorem mdeque_locked (s : MutexState) : (mdeque s).locked = s.locked := by
  unfold mdeque
  cases hq : s.queue <;> simp

@[simp]
theorem mdeque_opts (s : MutexState) : (mdeque s).opts = s.opts := by
  unfold mdeque
  cases hq : s.queue <;> simp

/-! Invoking a releaser a second time is a no-op: after the first invocation
the `released` flag is set, and both release paths preserve set flags. -/

theorem mrelease_noop (r : Nat) (s : MutexState) (h : relGet r s.rel ≠ some false) :
    mrelease r s = s := by
  unfold mrelease
  rcases hg : relGet r s.rel with _ | b
  · rfl
  · cases b
    · exact absurd hg h
    · rfl

theorem mrelease_marks (r : Nat) (s : MutexState) (h : relGet r s.rel = some false) :
    relGet r (mrelease r s).rel = some true := by
  have hkey : relGet r (relSet r true s.rel) = some true :=
    relGet_relSet r false true s.rel h
  cases hq : s.queue with
  | nil =>
    cases ho : s.opts.onRelease <;>
      simp [mrelease, h, hq, ho, hkey]
  | cons w rest =>
    cases ho : s.opts.onRelease <;> cases hl : s.opts.onLock <;>
      simp [mrelease, mdeque, fireLock, h, hq, ho, hl] <;>
      exact relGet_append_some r true _ _ hkey

theorem mrelease_idem (r : Nat) (s : MutexState) :
    mrelease r (mrelease r s) = mrelease r s := by
  rcases hg : relGet r s.rel with _ | b
  · have h0 : mrelease r s = s := mrelease_noop r s (by simp [hg])
    rw [h0]
    exact h0
  · cases b
    · exact mrelease_noop r _ (by rw [mrelease_marks r s hg]; simp)
    · have h0 : mrelease r s = s := mrelease_noop r s (by simp [hg])
      rw [h0]
      exact h0

theorem srelease_noop (r : Nat) (s : SemState) (h : relGet r s.rel ≠ some false) :
    srelease r s = s := by
  unfold srelease
  rcases hg : relGet r s.rel with _ | b
  · rfl
  · cases b
    · exact absurd hg h
    · rfl

theorem srelease_marks (r : Nat) (s : SemState) (h : relGet r s.rel = some false) :
    relGet r (srelease r s).rel = some true := by
  have hkey : relGet r (relSet r true s.rel) = some true :=
    relGet_relSet r false true s.rel h
  cases hq : s.queue with
  | nil =>
    cases ho : s.opts.onRelease <;>
      simp [srelease, sdispatch, h, hq, ho, hkey]
  | cons w rest =>
    cases ho : s.opts.onRelease <;>
      simp [srelease, sdispatch, h, hq, ho] <;>
      exact relGet_append_some r true _ _ hkey

theorem srelease_idem (r : Nat) (s : SemState) :
    srelease r (srelease r s) = srelease r s := by
  rcases hg : relGet r s.rel with _ | b
  · have h0 : srelease r s = s := srelease_noop r s (by simp [hg])
    rw [h0]
    exact h0
  · cases b
    · exact srelease_noop r _ (by rw [srelease_marks r s hg]; simp)
    · have h0 : srelease r s = s := srelease_noop r s (by simp [hg])
      rw [h0]
      exact h0

/-- C1: On `new Semaphore(2)` no `acquire()` is ever admitted: the promise
executor `this.#enque` is passed unbound, so each of the three acquire
promises rejects with a TypeError, nothing is enqueued or granted, and
`isLocked` stays `false` — the first two calls do not resolve, and the third
neither queues nor waits for a release, contradicting the claimed admission
behaviour (and the repository's test for it). -/
theorem semaphore_acquire_rejects_typeerror :
    grantedWaitersS (srun 2 optsAllS [SOp.acquire 1, SOp.acquire 2, SOp.acquire 3]).log
      = []
    ∧ rejectedWaitersS (srun 2 optsAllS [SOp.acquire 1, SOp.acquire 2, SOp.acquire 3]).log
      = [(1, ErrUnboundEnque), (2, ErrUnboundEnque), (3, ErrUnboundEnque)]
    ∧ (srun 2 optsAllS [SOp.acquire 1, SOp.acquire 2, SOp.acquire 3]).queue = []
    ∧ sIsLocked (srun 2 optsAllS [SOp.acquire 1, SOp.acquire 2, SOp.acquire 3]) = false := by
  decide

/-! Nothing is ever enqueued on a Semaphore (the unbound `#enque` executor
throws instead), so no waiter is ever granted, no releaser is ever issued,
and `#allowed` never moves off `#maxConcurrent` in any reachable state. -/

theorem sstep_degenerate (t : SemState) (op : SOp)
    (h : t.allowed = (t.maxConcurrent : Int) ∧ t.queue = [] ∧ t.rel = []) :
    (sstep t op).allowed = ((sstep t op).maxConcurrent : Int)
    ∧ (sstep t op).queue = [] ∧ (sstep t op).rel = [] := by
  obtain ⟨h1, h2, h3⟩ := h
  cases op with
  | acquire w =>
    cases hA : t.opts.onAquire <;> cases hL : sIsLocked t <;>
      simp [sstep, sacquire, sdispatch, hA, hL, h1, h2, h3]
  | release r =>
    simp [sstep, srelease, relGet, h1, h2, h3]
  | cancelAll =>
    simp [sstep, scancelAll, h2, h3]

theorem srun_degenerate (n : Nat) (o : SemOptions) (ops : List SOp) :
    (srun n o ops).allowed = ((srun n o ops).maxConcurrent : Int)
    ∧ (srun n o ops).queue = [] ∧ (srun n o ops).rel = [] := by
  suffices h : ∀ t : SemState,
      (t.allowed = (t.maxConcurrent : Int) ∧ t.queue = [] ∧ t.rel = []) →
      ((List.foldl sstep t ops).allowed = ((List.foldl sstep t ops).maxConcurrent : Int)
        ∧ (List.foldl sstep t ops).queue = [] ∧ (List.foldl sstep t ops).rel = []) by
    exact h (SemState.init n o) ⟨rfl, rfl, rfl⟩
  induction ops with
  | nil => exact fun t ht => ht
  | cons op rest ih => exact fun t ht => ih (sstep t op) (sstep_degenerate t op ht)

/-- C2: In every reachable state the available-capacity count satisfies
`0 ≤ available ≤ capacity`, on both primitives.  For the Semaphore this holds
degenerately: the broken `acquire` path (unbound `#enque` executor) admits
nobody and issues no releaser, so `#allowed` stays pinned exactly at
`#maxConcurrent` through every acquire, release-token invocation and
cancelAll; the Mutex counter is the boolean `#locked`, always `0` or `1`. -/
theorem available_within_capacity_bounds :
    (∀ (n : Nat) (o : SemOptions) (ops : List SOp),
        0 ≤ (srun n o ops).allowed
        ∧ (srun n o ops).allowed ≤ ((srun n o ops).maxConcurrent : Int))
    ∧ (∀ (o : MutexOptions) (ops : List MOp),
        0 ≤ mAvailable (mrun o ops) ∧ mAvailable (mrun o ops) ≤ 1) := by
  constructor
  · intro n o ops
    have h := (srun_degenerate n o ops).1
    omega
  · intro o ops
    cases hl : (mrun o ops).locked <;> simp [mAvailable, hl]

/-- C3: `new Semaphore(0)` does not throw: `0` is falsy, so the constructor
takes the default branch and sets `#maxConcurrent = 1`, contrary to the
claim (and the repository's test) that zero is rejected.  The other parts of
the claim hold: `-1` and a string throw, `5` yields `maxConcurrent = 5`. -/
theorem semaphore_constructor_zero_defaults :
    semaphoreNew (JSValue.num 0) optsAllS = Except.ok (SemState.init 1 optsAllS)
    ∧ semaphoreNew (JSValue.num (-1)) optsAllS = Except.error ConstructError.notPositive
    ∧ semaphoreNew (JSValue.str "x") optsAllS = Except.error ConstructError.notANumber
    ∧ (semaphoreNew (JSValue.num 5) optsAllS).map SemState.maxConcurrent = Except.ok 5 := by
  decide

/-- C5 counterexample: a single `lock()` on a fresh unlocked Mutex produces
exactly one grant but fires the configured `onLock` twice — once in `lock()`
itself and once in `#deque` — refuting the claim that `onLock` fires exactly
once per grant. -/
theorem mutex_onLock_double_fire_cex :
    grantedWaitersM (mrun optsAllM [MOp.lock 1]).log = [1]
    ∧ (mrun optsAllM [MOp.lock 1]).log.count MEvent.lockEv = 2
    ∧ ¬ (mrun optsAllM [MOp.lock 1]).log.count MEvent.lockEv = 1 := by
  decide

/-- C4: `Semaphore.cancelAll()` rejects exactly the queued waiters with the
configured `errorCancelled` (defaulting to `ErrCancelled`), empties the
queue and resets `#allowed` to full capacity — but it appends no `onCancel`
event: the source never invokes the `onCancel` callback, contrary to the
claim and to the repository's own test. -/
theorem semaphore_cancelAll_spec (s : SemState) :
    (scancelAll s).queue = []
    ∧ (scancelAll s).allowed = (s.maxConcurrent : Int)
    ∧ (scancelAll s).log
      = s.log ++ s.queue.map
          (fun w => SEvent.rejected w (s.opts.errorCancelled.getD ErrCancelled))
    ∧ (scancelAll s).log.count SEvent.cancel = s.log.count SEvent.cancel := by
  refine ⟨rfl, rfl, rfl, ?_⟩
  simp [scancelAll, List.count_append, List.count_eq_zero, List.mem_map]

/-- C6: `Mutex.cancelAll(err?)` rejects exactly the queued waiters — issued
releasers are untouched — with priority `err`, then `options.errorCancelled`,
then `ErrCancelled`; it empties the queue, forces `#locked` to `false`, and
fires `onCancel` once, after the reset. -/
theorem mutex_cancelAll_spec (s : MutexState) (err : Option JSError) :
    (mcancelAll err s).queue = []
    ∧ (mcancelAll err s).locked = false
    ∧ (mcancelAll err s).rel = s.rel
    ∧ (mcancelAll err s).log
      = s.log ++ s.queue.map
          (fun w => MEvent.rejected w (err.getD (s.opts.errorCancelled.getD ErrCancelled)))
        ++ (if s.opts.onCancel then [MEvent.cancelEv] else []) := by
  cases ho : s.opts.onCancel <;> simp [mcancelAll, ho]

/-- C7: Release tokens are idempotent on both primitives: invoking a releaser
`k + 1` times leaves the same state as invoking it once, so every invocation
after the first is a no-op. -/
theorem release_token_idempotent (s : MutexState) (t : SemState) (r : Nat) (k : Nat) :
    (fun x => mrelease r x)^[k] (mrelease r s) = mrelease r s
    ∧ (fun x => srelease r x)^[k] (srelease r t) = srelease r t :=
  ⟨Function.iterate_fixed (mrelease_idem r s) k,
   Function.iterate_fixed (srelease_idem r t) k⟩

/-- C5 amended: with `onLock` configured, an immediate grant (a `lock()` call
on an unlocked Mutex) fires `onLock` exactly twice — once in `lock()` and
once in `#deque` — while a grant made when a release dequeues a waiter fires
`onLock` exactly once. -/
theorem mutex_onLock_fire_counts (s t : MutexState) (w r : Nat)
    (hs1 : s.locked = false) (hs2 : s.opts.onLock = true)
    (ht1 : t.opts.onLock = true) (ht2 : relGet r t.rel = some false)
    (ht3 : t.queue ≠ []) :
    (mlock w s).log.count MEvent.lockEv = s.log.count MEvent.lockEv + 2
    ∧ (mrelease r t).log.count MEvent.lockEv = t.log.count MEvent.lockEv + 1 := by
  constructor
  · cases hq : s.queue <;>
      simp [mlock, mdeque, fireLock, hs1, hs2, hq, List.count_append]
  · cases hq : t.queue with
    | nil => exact absurd hq ht3
    | cons a l =>
      cases ho : t.opts.onRelease <;>
        simp [mrelease, mdeque, fireLock, ht1, ht2, hq, ho, List.count_append]

/-- C5 amended, witness: a first `lock()` on a fresh Mutex fires `onLock`
twice, and releasing it with a second waiter queued fires `onLock` once. -/
theorem mutex_onLock_fire_counts_check :
    (mlock 1 (MutexState.init optsAllM)).log.count MEvent.lockEv
      = (MutexState.init optsAllM).log.count MEvent.lockEv + 2
    ∧ (mrelease 0 (mrun optsAllM [MOp.lock 1, MOp.lock 2])).log.count MEvent.lockEv
      = (mrun optsAllM [MOp.lock 1, MOp.lock 2]).log.count MEvent.lockEv + 1 :=
  mutex_onLock_fire_counts (MutexState.init optsAllM)
    (mrun optsAllM [MOp.lock 1, MOp.lock 2]) 1 0
    (by decide) (by decide) (by decide) (by decide) (by decide)

/-! The Mutex is unlocked only when its queue is empty, in every reachable
state: `#enque` sets `#locked` whenever it pushes, a release only unlocks
when the queue is empty, and `cancelAll` empties the queue as it unlocks. -/

theorem mcancelAll_queue (err : Option JSError) (s : MutexState) :
    (mcancelAll err s).queue = [] := by
  cases ho : s.opts.onCancel <;> simp [mcancelAll, ho]

theorem mrelease_queue_of_empty (r : Nat) (s : MutexState) (hq : s.queue = []) :
    (mrelease r s).queue = [] := by
  rcases hg : relGet r s.rel with _ | b
  · rw [mrelease_noop r s (by simp [hg])]
    exact hq
  · cases b
    · cases ho : s.opts.onRelease <;> simp [mrelease, hg, hq, ho]
    · rw [mrelease_noop r s (by simp [hg])]
      exact hq

theorem mrelease_locked_of_ne (r : Nat) (s : MutexState) (hq : s.queue ≠ []) :
    (mrelease r s).locked = s.locked := by
  rcases hg : relGet r s.rel with _ | b
  · rw [mrelease_noop r s (by simp [hg])]
  · cases b
    · cases hqq : s.queue with
      | nil => exact absurd hqq hq
      | cons a l =>
        cases ho : s.opts.onRelease <;> simp [mrelease, mdeque, hg, hqq, ho]
    · rw [mrelease_noop r s (by simp [hg])]

theorem mstep_unlocked_empty (s : MutexState) (op : MOp)
    (h : s.locked = false → s.queue = []) :
    (mstep s op).locked = false → (mstep s op).queue = [] := by
  cases op with
  | lock w =>
    by_cases hl : s.locked <;>
      simp [mstep, mlock, hl]
  | release r =>
    simp only [mstep]
    by_cases hq : s.queue = []
    · intro _
      exact mrelease_queue_of_empty r s hq
    · intro hres
      rw [mrelease_locked_of_ne r s hq] at hres
      exact absurd (h hres) hq
  | cancelAll err =>
    intro _
    exact mcancelAll_queue err s

theorem mrun_unlocked_empty (o : MutexOptions) (ops : List MOp) :
    (mrun o ops).locked = false → (mrun o ops).queue = [] := by
  suffices h : ∀ s : MutexState, (s.locked = false → s.queue = []) →
      ((List.foldl mstep s ops).locked = false → (List.foldl mstep s ops).queue = []) by
    exact h (MutexState.init o) (fun _ => rfl)
  induction ops with
  | nil => exact fun s hs => hs
  | cons op rest ih => exact fun s hs => ih (mstep s op) (mstep_unlocked_empty s op hs)

/-- A release with a non-empty queue grants exactly the queue head. -/
theorem mrelease_grants_head (t : MutexState) (r w : Nat) (rest : List Nat)
    (h1 : relGet r t.rel = some false) (h2 : t.queue = w :: rest) :
    grantedWaitersM (mrelease r t).log = grantedWaitersM t.log ++ [w] := by
  cases ho : t.opts.onRelease <;> cases hl : t.opts.onLock <;>
    simp [mrelease, mdeque, fireLock, grantedWaitersM, h1, h2, ho, hl]

/-- C8: FIFO grant order.  On a capacity-1 Mutex with waiters 1, 2, 3 queued
in that order, releasing in sequence grants 1 then 2 then 3 and ends
unlocked; in every reachable state an unlocked Mutex has an empty queue (so
an immediate grant bypasses only an empty queue); and a release always
grants exactly the head of the waiter queue. -/
theorem mutex_fifo_grants :
    (grantedWaitersM (mrun optsAllM [MOp.lock 1, MOp.lock 2, MOp.lock 3,
        MOp.release 0, MOp.release 1, MOp.release 2]).log = [1, 2, 3]
      ∧ (mrun optsAllM [MOp.lock 1, MOp.lock 2, MOp.lock 3,
        MOp.release 0, MOp.release 1, MOp.release 2]).locked = false)
    ∧ (∀ (o : MutexOptions) (ops : List MOp),
        (mrun o ops).locked = false → (mrun o ops).queue = [])
    ∧ (∀ (t : MutexState) (r w : Nat) (rest : List Nat),
        relGet r t.rel = some false → t.queue = w :: rest →
        grantedWaitersM (mrelease r t).log = grantedWaitersM t.log ++ [w]) :=
  ⟨by decide, mrun_unlocked_empty, mrelease_grants_head⟩

/-- C8 witness: the invariant and the head-grant law applied at concrete
runs — after lock-then-release the Mutex queue is empty, and releasing with
waiter 2 queued grants exactly waiter 2. -/
theorem mutex_fifo_grants_check :
    (mrun optsAllM [MOp.lock 1, MOp.release 0]).queue = []
    ∧ grantedWaitersM (mrelease 0 (mrun optsAllM [MOp.lock 1, MOp.lock 2])).log
      = grantedWaitersM (mrun optsAllM [MOp.lock 1, MOp.lock 2]).log ++ [2] :=
  ⟨mutex_fifo_grants.2.1 optsAllM [MOp.lock 1, MOp.release 0] (by decide),
   mutex_fifo_grants.2.2 (mrun optsAllM [MOp.lock 1, MOp.lock 2]) 0 2 []
     (by decide) (by decide)⟩

/-! Reading the ticket delivered by an immediate grant out of the log. -/

theorem lastGrantM_snoc_granted (w r : Nat) (l : List MEvent) :
    lastGrantM w (l ++ [MEvent.granted w r]) = some r := by
  simp [lastGrantM, List.findSome?]

/-- A `lock()` on an unlocked Mutex with an empty queue: the new waiter is
granted synchronously with a fresh releaser, firing `onLock` twice when
configured. -/
theorem mlock_immediate (w : Nat) (s : MutexState)
    (h1 : s.locked = false) (h2 : s.queue = []) :
    mlock w s =
      { s with
        locked := true
        queue := []
        nextR := s.nextR + 1
        rel := s.rel ++ [(s.nextR, false)]
        log := (if s.opts.onLock then s.log ++ [MEvent.lockEv, MEvent.lockEv] else s.log)
          ++ [MEvent.granted w s.nextR] } := by
  cases hl : s.opts.onLock <;> simp [mlock, mdeque, fireLock, h1, h2, hl]

theorem mguard_spec (w : Nat) (s : MutexState) (cb : Except JSError Nat)
    (h1 : s.locked = false) (h2 : s.queue = [])
    (h3 : relGet s.nextR s.rel = none) (h4 : s.opts.onRelease = true) :
    (mguard w s cb).2 = cb
    ∧ (mguard w s cb).1.log.count MEvent.releaseEv
      = s.log.count MEvent.releaseEv + 1 := by
  have hlock := mlock_immediate w s h1 h2
  have hlast : lastGrantM w (mlock w s).log = some s.nextR := by
    rw [hlock]
    exact lastGrantM_snoc_granted w s.nextR _
  have hget : relGet s.nextR (s.rel ++ [(s.nextR, false)]) = some false := by
    rw [relGet_append_none s.nextR s.rel _ h3]
    simp [relGet]
  constructor
  · simp [mguard, hlast]
  · simp only [mguard, hlast]
    rw [hlock]
    cases hl : s.opts.onLock <;>
      simp [mrelease, hget, h4, hl, List.count_append, List.count_cons, beq_iff_eq]

/-- Whatever `Semaphore.acquire()` appends to the event log — the TypeError
rejection, a grant dispatched to a previously queued waiter, an `onAquire`
firing — none of it is an `onRelease` firing. -/
theorem sacquire_count_release (w : Nat) (t : SemState) :
    (sacquire w t).log.count SEvent.release = t.log.count SEvent.release := by
  cases hA : t.opts.onAquire <;> cases hL : sIsLocked t <;> cases hq : t.queue <;>
    simp [sacquire, sdispatch, hA, hL, hq, List.count_append, List.count_cons,
      beq_iff_eq]

/-- C9: `Mutex.guard` returns exactly the callback's outcome — a value or a
failure, unmodified — and performs exactly one release on every exit path,
for every callback.  `Semaphore.guard`, by contrast, rejects with the
TypeError from the unbound `#enque` promise executor before entering its
`try`/`finally`: for every state and every callback the result is that
rejection, no `onRelease` ever fires, and the outcome is independent of the
callback — the callback never runs — contradicting the claim (and the
repository's own guard test) on the Semaphore side. -/
theorem guard_release_contract :
    (∀ cb : Except JSError Nat,
        (mguard 1 (MutexState.init optsAllM) cb).2 = cb
        ∧ (mguard 1 (MutexState.init optsAllM) cb).1.log.count MEvent.releaseEv = 1)
    ∧ (∀ (t : SemState) (w : Nat) (cb cb2 : Int → Except JSError Nat),
        (sguard w t cb).2 = Except.error ErrUnboundEnque
        ∧ (sguard w t cb).1.log.count SEvent.release = t.log.count SEvent.release
        ∧ sguard w t cb = sguard w t cb2) := by
  constructor
  · intro cb
    have h := mguard_spec 1 (MutexState.init optsAllM) cb rfl rfl rfl rfl
    exact ⟨h.1, h.2⟩
  · intro t w cb cb2
    exact ⟨rfl, sacquire_count_release w t, rfl⟩
